import Mathlib

/-!
Verification of the United Formulas chemist chat route
(`src/app/api/chat/route.ts`) against its natural-language specification.

The TypeScript route is shallowly embedded below.  JavaScript strings are
modelled as Lean `String` values and all operations on them are implemented
over the underlying `List Char` so that every definition is executable and
kernel-reducible (ASCII behaviour of `toLowerCase`, `toUpperCase`, `trim`
and `\s` is modelled; the repository's data is ASCII).  Fallible external
calls (JSON parsing, blob-store downloads, binary-document text extraction,
generative-model calls) are modelled as `Except String`-valued inputs of an
environment record, mirroring exactly where the route catches errors.
-/

/-! ### JavaScript string primitives, modelled over `List Char` -/

/-- ASCII model of JavaScript `toLowerCase` on a single character. -/
def charLower (c : Char) : Char :=
  if 65 ≤ c.toNat && c.toNat ≤ 90 then Char.ofNat (c.toNat + 32) else c

/-- ASCII model of JavaScript `toUpperCase` on a single character. -/
def charUpper (c : Char) : Char :=
  if 97 ≤ c.toNat && c.toNat ≤ 122 then Char.ofNat (c.toNat - 32) else c

/-- ASCII model of the JavaScript `\s` whitespace class. -/
def isWsC (c : Char) : Bool :=
  c = ' ' || c = '\t' || c = '\n' || c = '\r' || c.toNat = 11 || c.toNat = 12

/-- The JavaScript `\w` word-character class. -/
def isWordC (c : Char) : Bool :=
  c.isAlphanum || c = '_'

/-- `startsL pat l`: `l` starts with `pat` (JavaScript `startsWith`). -/
def startsL : List Char → List Char → Bool
  | [], _ => true
  | _ :: _, [] => false
  | p :: ps, c :: cs => p = c && startsL ps cs

/-- `hasSubL l pat`: `pat` occurs as a contiguous substring of `l`
(JavaScript `includes`). -/
def hasSubL : List Char → List Char → Bool
  | [], pat => startsL pat []
  | c :: t, pat => startsL pat (c :: t) || hasSubL t pat

/-- JavaScript `s.includes(pat)`. -/
def strIncludes (s pat : String) : Bool := hasSubL s.data pat.data

/-- JavaScript `s.startsWith(pat)`. -/
def startsStr (s pat : String) : Bool := startsL pat.data s.data

/-- JavaScript `s.endsWith(pat)`. -/
def endsStr (s pat : String) : Bool := startsL pat.data.reverse s.data.reverse

/-- JavaScript `s.toLowerCase()` (ASCII). -/
def lowerStr (s : String) : String := String.mk (s.data.map charLower)

/-- JavaScript `s.toUpperCase()` (ASCII). -/
def upperStr (s : String) : String := String.mk (s.data.map charUpper)

/-- Strip leading and trailing whitespace from a character list. -/
def trimL (l : List Char) : List Char :=
  ((l.dropWhile isWsC).reverse.dropWhile isWsC).reverse

/-- JavaScript `s.trim()`. -/
def trimStr (s : String) : String := String.mk (trimL s.data)

/-- JavaScript `s.slice(0, n)`. -/
def takeStr (s : String) (n : Nat) : String := String.mk (s.data.take n)

/-- JavaScript `Array.prototype.join(sep)`. -/
def joinSep (sep : String) : List String → String
  | [] => ""
  | [x] => x
  | x :: y :: t => x ++ sep ++ joinSep sep (y :: t)

/-! ### Input guard: history sanitization (`sanitizeHistory`, route.ts 51-71) -/

def MAX_MESSAGE_LENGTH : Nat := 1000
def MAX_HISTORY_ITEMS : Nat := 12
def MAX_HISTORY_CONTENT_LENGTH : Nat := 6000
def RATE_LIMIT_WINDOW_MS : Nat := 60000
def RATE_LIMIT_MAX_REQUESTS : Nat := 30

/-- A raw history entry from the request body: either a JSON object whose
`role`/`content` fields may be strings (`none` models a missing or
non-string field) or any non-object JSON value. -/
inductive RawMsg where
  | obj (role : Option String) (content : Option String)
  | nonObj
deriving DecidableEq, Repr

/-- A sanitized history entry; `role` is exactly `"user"` or `"model"`. -/
structure HistMsg where
  role : String
  content : String
deriving DecidableEq, Repr

/-- One entry of the sanitize pipeline: drop non-objects, coerce `role`
(anything other than the string `"user"` becomes `"model"`), coerce
`content` (non-strings become `""`, strings are capped via `slice(0, 1000)`). -/
def coerceMsg : RawMsg → Option HistMsg
  | RawMsg.nonObj => Option.none
  | RawMsg.obj role content =>
    some ⟨if role = some "user" then "user" else "model",
          match content with
          | some s => takeStr s MAX_MESSAGE_LENGTH
          | Option.none => ""⟩

/-- JavaScript `l.slice(-n)`: the last `n` elements. -/
def lastN (n : Nat) (l : List α) : List α := l.drop (l.length - n)

/-- The sanitize pipeline up to and including the `slice(-MAX_HISTORY_ITEMS)`
count trim (route.ts 54-61). -/
def cleanTrimmed (l : List RawMsg) : List HistMsg :=
  lastN MAX_HISTORY_ITEMS
    ((l.filterMap coerceMsg).filter (fun m => 0 < m.content.length))

/-- The closure-based character-budget filter (route.ts 63-70): walk the
count-trimmed history front to back, keeping an entry only when the running
total of kept content stays within the budget. -/
def budgetTrim : Nat → List HistMsg → List HistMsg
  | _, [] => []
  | total, m :: rest =>
    if MAX_HISTORY_CONTENT_LENGTH < total + m.content.length then
      budgetTrim total rest
    else
      m :: budgetTrim (total + m.content.length) rest

/-- `sanitizeHistory` (route.ts 51-71); `none` models a non-array `history`. -/
def sanitizeHistory : Option (List RawMsg) → List HistMsg
  | Option.none => []
  | some l => budgetTrim 0 (cleanTrimmed l)

/-- The count-trimmed history an input gives rise to (for comparison with
the fully sanitized history). -/
def cleanTrimmedOf : Option (List RawMsg) → List HistMsg
  | Option.none => []
  | some l => cleanTrimmed l

/-! ### Input guard: rate limiting (`isRateLimited`, route.ts 34-49) -/

/-- A per-client quota entry. -/
structure RateLimitEntry where
  count : Nat
  expiresAt : Nat
deriving DecidableEq, Repr

/-- One call of `isRateLimited` for a client whose stored entry is `entry`
at time `now`: returns whether the request is rejected together with the
client's updated entry. -/
def isRateLimitedStep (entry : Option RateLimitEntry) (now : Nat) :
    Bool × Option RateLimitEntry :=
  match entry with
  | Option.none => (false, some ⟨1, now + RATE_LIMIT_WINDOW_MS⟩)
  | some e =>
    if e.expiresAt ≤ now then (false, some ⟨1, now + RATE_LIMIT_WINDOW_MS⟩)
    else if RATE_LIMIT_MAX_REQUESTS ≤ e.count then (true, some e)
    else (false, some ⟨e.count + 1, e.expiresAt⟩)

/-- Run a sequence of requests (given by their timestamps) for one client,
collecting each request's rejection flag. -/
def rlProcess : Option RateLimitEntry → List Nat → List Bool × Option RateLimitEntry
  | st, [] => ([], st)
  | st, t :: ts =>
    let s := isRateLimitedStep st t
    let r := rlProcess s.2 ts
    (s.1 :: r.1, r.2)

/-! ### Intent routing (route.ts 228-255) -/

/-- The fixed category/problem keyword list of the "Safety Catch-all for
Category Searches" (route.ts 230), including its misspelled variants. -/
def categoryKeywords : List String :=
  ["wash", "cleaner", "clner", "wassh", "soap", "detergent", "degreas",
   "acid", "caustic", "sanitiz", "mop", "wax", "polish", "dish"]

/-- The recognized decision keywords of the normalization loop (route.ts 243). -/
def decisionKeywords : List String :=
  ["GUIDE", "DELIVERY", "CLARIFY", "NONE", "GENERAL"]

/-- `isLikelySearch` (route.ts 229-231): the lowercased message contains one
of the category keywords. -/
def isLikelySearch (message : String) : Bool :=
  categoryKeywords.any (fun k => strIncludes (lowerStr message) k)

def quoteCh : Char := Char.ofNat 39
def dquoteCh : Char := Char.ofNat 34
def backtickCh : Char := Char.ofNat 96

/-- The global replacement of the code-fence pattern (three backticks
followed by an optional run of word characters) by the empty string
(route.ts 253, first `replace`). -/
def sfAux : Bool → List Char → List Char
  | _, [] => []
  | skip, c1 :: c2 :: c3 :: rest =>
    if skip && isWordC c1 then sfAux true (c2 :: c3 :: rest)
    else if c1 = backtickCh && c2 = backtickCh && c3 = backtickCh then
      sfAux true rest
    else c1 :: sfAux false (c2 :: c3 :: rest)
  | skip, c :: rest =>
    if skip && isWordC c then sfAux true rest
    else c :: sfAux false rest

def stripFences (l : List Char) : List Char := sfAux false l

/-- The final fallback cleanup for filenames (route.ts 253): strip code
fences, drop quote characters, take the first line, trim. -/
def cleanupSelected (s : String) : String :=
  let noFences := stripFences s.data
  let noQuotes := noFences.filter
    (fun c => !(c = quoteCh || c = dquoteCh || c = backtickCh))
  let firstLine := noQuotes.takeWhile (fun c => c ≠ '\n')
  String.mk (trimL firstLine)

/-- The routing step (route.ts 228-253) as a function of the user message
and of the text the classifier model would return: if a category keyword
occurs in the message the classifier is skipped and `"GUIDE"` is forced;
then the normalization loop scans the uppercased selection for the first
recognized decision keyword; finally the filename cleanup is applied. -/
def routeDecision (message : String) (classifierText : String) : String :=
  let selected0 := if isLikelySearch message then "GUIDE" else trimStr classifierText
  let upper := upperStr selected0
  let selected1 :=
    match decisionKeywords.find? (fun kw => strIncludes upper kw) with
    | some kw => kw
    | Option.none => selected0
  cleanupSelected selected1

/-- The routing step including the fallibility of the classifier call: the
classifier is only invoked (and can therefore only fail) when no category
keyword fires (route.ts 233-240). -/
def decisionOf (message : String) (cls : Except String String) : Except String String :=
  if isLikelySearch message then Except.ok (routeDecision message "")
  else
    match cls with
    | Except.ok r => Except.ok (routeDecision message r)
    | Except.error e => Except.error e

/-! ### Premium metadata resolution (route.ts 287-320) -/

/-- A curated record of `product_metadata.json`.  A record with no
`variants` field is modelled by the empty list (the JavaScript
`details.variants && …` guard then behaves identically). -/
structure PremiumRecord where
  displayName : String
  canonicalDescription : String
  category : String
  variants : List String
deriving DecidableEq, Repr

/-- The global replacement of `/grounding__|sku_master__|.txt|.pdf/` by the
empty string (route.ts 304).  The `.` of `.txt` and `.pdf` is an unescaped
regular-expression dot matching any character except a newline; alternatives
are tried left to right at each position. -/
def sstAux : Nat → List Char → List Char
  | 0, l => l
  | _ + 1, [] => []
  | fuel + 1, c :: rest =>
    if startsL "grounding__".data (c :: rest) then
      sstAux fuel ((c :: rest).drop 11)
    else if startsL "sku_master__".data (c :: rest) then
      sstAux fuel ((c :: rest).drop 12)
    else if c ≠ '\n' && startsL "txt".data rest then
      sstAux fuel ((c :: rest).drop 4)
    else if c ≠ '\n' && startsL "pdf".data rest then
      sstAux fuel ((c :: rest).drop 4)
    else c :: sstAux fuel rest

/-- Fuel-indexed scan wrapper: every step of `sstAux` consumes at least one
character, so `l.length` fuel always suffices and the fuel-exhausted base
case is unreachable. -/
def stripSelTokens (l : List Char) : List Char := sstAux l.length l

/-- The segment before the first `"__"` (JavaScript `split('__')[0]`). -/
def segBefore : List Char → List Char
  | [] => []
  | c :: rest =>
    if startsL "__".data (c :: rest) then [] else c :: segBefore rest

/-- The global replacement of each maximal whitespace run by one hyphen
(JavaScript `replace(/\s+/g, '-')`). -/
def hwAux : Bool → List Char → List Char
  | _, [] => []
  | inRun, c :: rest =>
    if isWsC c then
      if inRun then hwAux true rest else '-' :: hwAux true rest
    else c :: hwAux false rest

def hyphenateWs (l : List Char) : List Char := hwAux false l

/-- Slug derivation (route.ts 300-305): take the path's last segment, strip
the known prefixes/extensions, lowercase, take the segment before `"__"`,
trim, normalize whitespace runs to hyphens. -/
def deriveFileKey (selectedFile : String) : String :=
  let lastSeg := (selectedFile.data.reverse.takeWhile (fun c => c ≠ '/')).reverse
  let cleanName := stripSelTokens lastSeg
  let lowered := cleanName.map charLower
  String.mk (hyphenateWs (trimL (segBefore lowered)))

/-- The per-record match condition of the metadata loop (route.ts 309-320):
exact key equality, or the slug equals or extends one of the record's
variants, or the slug extends the record key. -/
def matchesRecord (fileKey : String) (kd : String × PremiumRecord) : Bool :=
  kd.1 = fileKey
    || kd.2.variants.any (fun v => v = fileKey || startsStr fileKey v)
    || startsStr fileKey kd.1

/-- Premium-record resolution: the first record (in entry order) whose match
condition holds, else `none`. -/
def resolvePremium (fileKey : String) (records : List (String × PremiumRecord)) :
    Option PremiumRecord :=
  (records.find? (matchesRecord fileKey)).map (fun kd => kd.2)

/-- Modelled from the spec (section 4.4) for refinement comparison only: the
spec's match order — (a) exact key equality, then (b) slug equals a variant,
then (c) bidirectional prefix containment between slug and key — with each
phase scanned over all records before the next phase is tried. -/
def specResolvePremium (fileKey : String) (records : List (String × PremiumRecord)) :
    Option PremiumRecord :=
  match records.find? (fun kd => kd.1 = fileKey) with
  | some kd => some kd.2
  | Option.none =>
    match records.find? (fun kd => kd.2.variants.any (fun v => v = fileKey)) with
    | some kd => some kd.2
    | Option.none =>
      (records.find?
        (fun kd => startsStr kd.1 fileKey || startsStr fileKey kd.1)).map
        (fun kd => kd.2)

/-! ### Context assembly (route.ts 257-358) -/

/-- A parsed entry of `delivery_zipcodes.json`. -/
structure ZipRec where
  zip : String
  city : String
  county : String
deriving DecidableEq, Repr

/-- One rendered line of the delivery-zone list (route.ts 271). -/
def zipLine (z : ZipRec) : String :=
  z.zip ++ ": " ++ z.city ++ " (" ++ z.county ++ ")"

/-- The kind of branch the retrieve-and-parse if-chain (route.ts 260-358)
takes for a given normalized decision string. -/
inductive ContextBranch where
  | clarify | guide | delivery | unknownProduct | general | document | fallback
deriving DecidableEq, Repr

def contextBranchOf (selectedFile : String) : ContextBranch :=
  if selectedFile = "CLARIFY" then ContextBranch.clarify
  else if selectedFile = "GUIDE" then ContextBranch.guide
  else if selectedFile = "DELIVERY" then ContextBranch.delivery
  else if selectedFile = "NONE" then ContextBranch.unknownProduct
  else if selectedFile = "GENERAL" then ContextBranch.general
  else if 0 < selectedFile.length then ContextBranch.document
  else ContextBranch.fallback

def clarifyContext : String :=
  "STATUS: NO PRODUCT NAMED. You MUST ask which product they are referring to before providing safety or technical details. Do not guess the product."

def generalContext : String :=
  "STATUS: OUT OF SCOPE. The user's question is unrelated to chemistry, products, or delivery. Politely acknowledge that as a chemical safety assistant, you don't have access to that information, but offer to help with anything related to United Formulas."

def defaultContext : String :=
  "No specific technical record found. Answer based on general knowledge or ask for clarification if a product is needed."

/-- The `DELIVERY` context block (route.ts 264-276); a zipcode JSON parse
failure has already been degraded to the empty list by the caller. -/
def deliveryContext (parsedZips : List ZipRec) : String :=
  let zipList := joinSep "\n" (parsedZips.map zipLine)
  "DELIVERY & SHIPPING CONTEXT:\n            VALID DELIVERY LOCATIONS:\n            "
    ++ (if zipList = "" then "No specific zipcode data found." else zipList)
    ++ "\n\n            GENERAL POLICY: We aim to ship all orders the next day. Local delivery is standard same/next day. Our main routes cover Great Falls and Billings regions."

/-- The `NONE` context block (route.ts 277-281): echo the content of the
most recent user turn of the sanitized history. -/
def unknownProductContext (history : List HistMsg) : String :=
  let lastUserMsg :=
    ((history.reverse.find? (fun m => m.role = "user")).map
      (fun m => m.content)).getD ""
  "STATUS: UNKNOWN PRODUCT. The user mentioned \"" ++ lastUserMsg
    ++ "\", but we do not have a technical record for it. Acknowledge this name specifically and offer general guidance."

/-- The technical-record retrieval (route.ts 322-343): nothing is fetched
when the identifier is not in the file index; a download or extraction
failure is caught and replaced by the placeholder; extracted PDF text is
capped via `slice(0, 30000)` while other files use the raw text uncapped. -/
def technicalRecordOf (selectedFile : String) (found : Bool)
    (download : Except String String) : String :=
  if found then
    match download with
    | Except.ok contentText =>
      if endsStr (lowerStr selectedFile) ".pdf" then takeStr contentText 30000
      else contentText
    | Except.error _ => "Technical record could not be loaded."
  else ""

/-- The `VARIANTS / SIZES` line content (route.ts 346). -/
def variantListOf (premiumMatch : Option PremiumRecord) : String :=
  match premiumMatch with
  | some p => joinSep ", " p.variants
  | Option.none => "No specific size info in metadata."

/-- The document/product context block (route.ts 284-357): resolve a
premium record for the derived slug and compose the premium fields
(with generic placeholders when absent) followed by the technical record. -/
def premiumHeader (selectedFile : String) (premiumMatch : Option PremiumRecord) : String :=
  let nameStr := match premiumMatch with
    | some p => if p.displayName = "" then selectedFile else p.displayName
    | Option.none => selectedFile
  let catStr := match premiumMatch with
    | some p => if p.category = "" then "Unknown" else p.category
    | Option.none => "Unknown"
  let descStr := match premiumMatch with
    | some p =>
      if p.canonicalDescription = "" then
        "No premium description available yet. Summarize technical record instead."
      else p.canonicalDescription
    | Option.none => "No premium description available yet. Summarize technical record instead."
  "STATUS: PRODUCT IDENTIFIED.\n            \n            PREMIUM BRANDED DATA (MANDATORY FOR OVERVIEW):\n            - Product Name: "
    ++ nameStr
    ++ "\n            - Category: " ++ catStr
    ++ "\n            - Official Description: " ++ descStr
    ++ "\n            - VARIANTS / SIZES: " ++ variantListOf premiumMatch
    ++ " (If user asks about sizes, LIST THESE EXACTLY)\n            \n            TECHNICAL RECORD (SDS/TECHNICAL DATA):\n            "

def documentContext (selectedFile : String) (files : List String)
    (premiumMeta : List (String × PremiumRecord))
    (download : Except String String) : String :=
  premiumHeader selectedFile (resolvePremium (deriveFileKey selectedFile) premiumMeta)
    ++ technicalRecordOf selectedFile (files.any (fun n => n = selectedFile)) download

/-- The retrieve-and-parse if-chain (route.ts 257-358) producing the
context block for a normalized decision. -/
def assembleContext (selectedFile : String) (history : List HistMsg)
    (productGuide : String) (parsedZips : List ZipRec)
    (premiumMeta : List (String × PremiumRecord)) (files : List String)
    (download : Except String String) : String :=
  if selectedFile = "CLARIFY" then clarifyContext
  else if selectedFile = "GUIDE" then
    "STATUS: PRODUCT IDENTIFIED (CATALOG). FULL PRODUCT CATALOG & MAPPING GUIDE:\n"
      ++ productGuide
  else if selectedFile = "DELIVERY" then deliveryContext parsedZips
  else if selectedFile = "NONE" then unknownProductContext history
  else if selectedFile = "GENERAL" then generalContext
  else if 0 < selectedFile.length then
    documentContext selectedFile files premiumMeta download
  else defaultContext

/-! ### Answer invocation (route.ts 401-418) -/

/-- A turn in the external chat format; the single text part is inlined. -/
structure Turn where
  role : String
  text : String
deriving DecidableEq, Repr

/-- Mapping one sanitized history entry into the external turn format
(route.ts 401-404). -/
def mapTurn (m : HistMsg) : Turn :=
  ⟨if m.role = "user" then "user" else "model", m.content⟩

/-- The history-priming loop (route.ts 407-409): shift turns from the front
while the leading turn is a model turn. -/
def primeTurns (l : List Turn) : List Turn :=
  l.dropWhile (fun t => t.role = "model")

/-! ### The request handler (`POST`, route.ts 99-428) -/

/-- The parsed request body; `message` is `none` when absent or not a
string, `history` is `none` when absent or not an array. -/
structure ChatBody where
  message : Option String
  history : Option (List RawMsg)

/-- All request-scoped inputs of one `POST` invocation.  Each fallible
external interaction is an `Except String` value carrying the would-be
exception message on failure, placed exactly where route.ts can observe a
failure: body JSON parsing, the file-index fetch, the zipcode JSON parse,
the premium-metadata load, the classifier call, the selected document's
download/extraction, and the answering call (a function of the assembled
context block). -/
structure Env where
  apiKeyPresent : Bool
  quota : Option RateLimitEntry
  now : Nat
  body : Except String ChatBody
  filesFetch : Except String (List String)
  productGuide : String
  zipcodes : Except String (List ZipRec)
  premiumMeta : Except String (List (String × PremiumRecord))
  classifierResult : Except String String
  download : Except String String
  answer : String → Except String String

/-- The JSON payload returned to the caller, together with its HTTP status. -/
inductive ApiResponse where
  | success (response : String)
  | failure (error : String) (code : String) (details : Option String) (status : Nat)
deriving DecidableEq, Repr

def configErrorResp : ApiResponse :=
  ApiResponse.failure "Service temporarily unavailable" "CONFIGURATION_ERROR" Option.none 503

def rateLimitedResp : ApiResponse :=
  ApiResponse.failure "Too many requests" "RATE_LIMITED" Option.none 429

def validationRequiredResp : ApiResponse :=
  ApiResponse.failure "Invalid request" "VALIDATION_ERROR" (some "Message is required") 400

def validationTooLongResp : ApiResponse :=
  ApiResponse.failure "Invalid request" "VALIDATION_ERROR"
    (some "Message must be 1000 characters or fewer") 400

def internalErrorResp : ApiResponse :=
  ApiResponse.failure "Chat request failed" "INTERNAL_ERROR"
    (some "Unexpected server error") 500

/-- The validated message of a parsed body (route.ts 117). -/
def messageOf (b : ChatBody) : String :=
  match b.message with
  | some s => trimStr s
  | Option.none => ""

/-- The context block the pipeline assembles for a parsed body, a fetched
file index and a normalized decision (route.ts 257-358). -/
def pipelineContext (env : Env) (b : ChatBody) (files : List String)
    (selectedFile : String) : String :=
  assembleContext selectedFile (sanitizeHistory b.history) env.productGuide
    (match env.zipcodes with
     | Except.ok l => l
     | Except.error _ => [])
    (match env.premiumMeta with
     | Except.ok l => l
     | Except.error _ => [])
    files env.download

/-- The whole `POST` handler: returns the response payload and the client's
quota entry after the request.  Any uncaught throw (body parse, file-index
fetch, classifier call, answering call) lands in the outer catch
(route.ts 420-426), which returns the fixed internal-error payload. -/
def POSTmodel (env : Env) : ApiResponse × Option RateLimitEntry :=
  if env.apiKeyPresent = false then (configErrorResp, env.quota)
  else
    let rl := isRateLimitedStep env.quota env.now
    if rl.1 then (rateLimitedResp, rl.2)
    else
      match env.body with
      | Except.error _ => (internalErrorResp, rl.2)
      | Except.ok b =>
        if messageOf b = "" then (validationRequiredResp, rl.2)
        else if MAX_MESSAGE_LENGTH < (messageOf b).length then (validationTooLongResp, rl.2)
        else
          match env.filesFetch with
          | Except.error _ => (internalErrorResp, rl.2)
          | Except.ok files =>
            match decisionOf (messageOf b) env.classifierResult with
            | Except.error _ => (internalErrorResp, rl.2)
            | Except.ok selectedFile =>
              match env.answer (pipelineContext env b files selectedFile) with
              | Except.error _ => (internalErrorResp, rl.2)
              | Except.ok responseText => (ApiResponse.success responseText, rl.2)

/-! ### Helper lemmas -/

lemma isRateLimitedStep_admit (k e t : Nat) (ht : t < e)
    (hk : k < RATE_LIMIT_MAX_REQUESTS) :
    isRateLimitedStep (some ⟨k, e⟩) t = (false, some ⟨k + 1, e⟩) := by
  simp only [isRateLimitedStep]
  rw [if_neg (by omega), if_neg (by omega)]

lemma isRateLimitedStep_reject (k e t : Nat) (ht : t < e)
    (hk : RATE_LIMIT_MAX_REQUESTS ≤ k) :
    isRateLimitedStep (some ⟨k, e⟩) t = (true, some ⟨k, e⟩) := by
  simp only [isRateLimitedStep]
  rw [if_neg (by omega), if_pos hk]

lemma rl_admit_run (e : Nat) (ts : List Nat) :
    ∀ k : Nat, (∀ t ∈ ts, t < e) → k + ts.length ≤ RATE_LIMIT_MAX_REQUESTS →
    rlProcess (some ⟨k, e⟩) ts = (List.replicate ts.length false, some ⟨k + ts.length, e⟩) := by
  induction ts with
  | nil => intro k _ _; simp [rlProcess]
  | cons t ts ih =>
    intro k hin hle
    have ht : t < e := hin t (by simp)
    have hstep := isRateLimitedStep_admit k e t ht (by simp at hle ⊢; omega)
    have hrec := ih (k + 1) (fun x hx => hin x (by simp [hx]))
      (by simp at hle ⊢; omega)
    simp [rlProcess, hstep, hrec, List.replicate_succ]
    omega

lemma rlProcess_append (st : Option RateLimitEntry) (l1 l2 : List Nat) :
    rlProcess st (l1 ++ l2) =
      ((rlProcess st l1).1 ++ (rlProcess (rlProcess st l1).2 l2).1,
        (rlProcess (rlProcess st l1).2 l2).2) := by
  induction l1 generalizing st with
  | nil => simp [rlProcess]
  | cons t l1 ih => simp [rlProcess, ih]

/-! ### Claim C6 — rate-limit window -/

/-- Claim C6: starting with no stored quota entry, a request at `t0`
followed by 30 further requests strictly inside the window `[t0, t0+60000)`
yields 30 admissions (the counter reaching 30) and then one `RATE_LIMITED`
rejection; the first request at or after the window's expiry is admitted
again and starts a fresh window with count 1. -/
theorem rate_limit_window_c6 (t0 t2 : Nat) (ts : List Nat)
    (hlen : ts.length = RATE_LIMIT_MAX_REQUESTS)
    (hin : ∀ t ∈ ts, t < t0 + RATE_LIMIT_WINDOW_MS)
    (hexp : t0 + RATE_LIMIT_WINDOW_MS ≤ t2) :
    rlProcess Option.none (t0 :: ts) =
      (List.replicate RATE_LIMIT_MAX_REQUESTS false ++ [true],
        some ⟨RATE_LIMIT_MAX_REQUESTS, t0 + RATE_LIMIT_WINDOW_MS⟩)
    ∧ isRateLimitedStep (some ⟨RATE_LIMIT_MAX_REQUESTS, t0 + RATE_LIMIT_WINDOW_MS⟩) t2
        = (false, some ⟨1, t2 + RATE_LIMIT_WINDOW_MS⟩) := by
  constructor
  · have hlen1 : (ts.take 29).length = 29 := by
      simp [List.length_take, hlen, RATE_LIMIT_MAX_REQUESTS]
    have hlen2 : (ts.drop 29).length = 1 := by
      simp [List.length_drop, hlen, RATE_LIMIT_MAX_REQUESTS]
    obtain ⟨tl, htl⟩ := List.length_eq_one.mp hlen2
    have htlin : tl < t0 + RATE_LIMIT_WINDOW_MS := by
      apply hin
      have h1 : tl ∈ ts.drop 29 := by simp [htl]
      exact List.drop_subset 29 ts h1
    have hrun : rlProcess (some ⟨1, t0 + RATE_LIMIT_WINDOW_MS⟩) (ts.take 29) =
        (List.replicate 29 false, some ⟨30, t0 + RATE_LIMIT_WINDOW_MS⟩) := by
      have h2 := rl_admit_run (t0 + RATE_LIMIT_WINDOW_MS) (ts.take 29) 1
        (fun x hx => hin x (List.take_subset 29 ts hx))
        (by rw [hlen1]; simp [RATE_LIMIT_MAX_REQUESTS])
      rw [hlen1] at h2
      norm_num at h2
      exact h2
    have hlast : rlProcess (some ⟨30, t0 + RATE_LIMIT_WINDOW_MS⟩) [tl] =
        ([true], some ⟨30, t0 + RATE_LIMIT_WINDOW_MS⟩) := by
      have hr := isRateLimitedStep_reject 30 (t0 + RATE_LIMIT_WINDOW_MS) tl htlin
        (by simp [RATE_LIMIT_MAX_REQUESTS])
      simp [rlProcess, hr]
    have happ : rlProcess (some ⟨1, t0 + RATE_LIMIT_WINDOW_MS⟩) (ts.take 29 ++ [tl]) =
        (List.replicate 29 false ++ [true], some ⟨30, t0 + RATE_LIMIT_WINDOW_MS⟩) := by
      rw [rlProcess_append, hrun]
      simp [hlast]
    have hfirst : isRateLimitedStep Option.none t0 =
        (false, some ⟨1, t0 + RATE_LIMIT_WINDOW_MS⟩) := by
      simp [isRateLimitedStep]
    calc rlProcess Option.none (t0 :: ts)
        = rlProcess Option.none (t0 :: (ts.take 29 ++ [tl])) := by
          rw [← htl, List.take_append_drop]
      _ = (false :: (List.replicate 29 false ++ [true]),
            some ⟨30, t0 + RATE_LIMIT_WINDOW_MS⟩) := by
          simp [rlProcess, hfirst, happ]
      _ = (List.replicate RATE_LIMIT_MAX_REQUESTS false ++ [true],
            some ⟨RATE_LIMIT_MAX_REQUESTS, t0 + RATE_LIMIT_WINDOW_MS⟩) := by
          rw [show RATE_LIMIT_MAX_REQUESTS = 29 + 1 from rfl, List.replicate_succ]
          simp
  · simp only [isRateLimitedStep]
    rw [if_pos hexp]

/-- Witness for C6 at a concrete run: 31 requests at time 0 from a fresh
client, then one request at the window boundary. -/
theorem rate_limit_window_c6_witness :
    rlProcess Option.none (0 :: List.replicate 30 0) =
      (List.replicate 30 false ++ [true], some ⟨30, 60000⟩)
    ∧ isRateLimitedStep (some ⟨30, 60000⟩) 60000 = (false, some ⟨1, 120000⟩) := by
  have h := rate_limit_window_c6 0 60000 (List.replicate 30 0)
    (by decide) (by decide) (by decide)
  simpa [RATE_LIMIT_MAX_REQUESTS, RATE_LIMIT_WINDOW_MS] using h

/-! ### Claim C7 — history priming before the answering call -/

lemma dropWhile_head_not {α : Type} (p : α → Bool) (l : List α) :
    ∀ t ∈ (l.dropWhile p).head?, p t = false := by
  induction l with
  | nil => simp [List.dropWhile]
  | cons c rest ih =>
    by_cases h : p c
    · simpa [List.dropWhile, h] using ih
    · simp [List.dropWhile, h]

/-- Claim C7: for every sanitized history, the mapped turn sequence has its
leading model ("assistant") turns — and only those — removed, so the primed
sequence is the contiguous tail of the mapped sequence starting at the
first user turn (or empty), and in particular `[assistant, user, assistant]`
becomes `[user, assistant]`. -/
theorem history_priming_c7 :
    (∀ l : List HistMsg,
      (l.map mapTurn).takeWhile (fun t => t.role = "model")
          ++ primeTurns (l.map mapTurn) = l.map mapTurn
      ∧ (∀ t ∈ (l.map mapTurn).takeWhile (fun t => t.role = "model"),
          t.role = "model")
      ∧ (primeTurns (l.map mapTurn) = []
          ∨ ∃ t ts, primeTurns (l.map mapTurn) = t :: ts ∧ t.role = "user"))
    ∧ primeTurns ([⟨"model", "a"⟩, ⟨"user", "b"⟩, ⟨"model", "c"⟩].map mapTurn)
        = [⟨"user", "b"⟩, ⟨"model", "c"⟩] := by
  constructor
  · intro l
    refine ⟨List.takeWhile_append_dropWhile _ _, ?_, ?_⟩
    · intro t ht
      have := List.mem_takeWhile_imp ht
      simpa using this
    · match hh : primeTurns (l.map mapTurn) with
      | [] => exact Or.inl rfl
      | t :: ts =>
        refine Or.inr ⟨t, ts, rfl, ?_⟩
        have hhead := dropWhile_head_not (fun t : Turn => t.role = "model") (l.map mapTurn)
        rw [primeTurns] at hh
        rw [hh] at hhead
        have hne : t.role ≠ "model" := by
          have := hhead t (by simp)
          simpa using this
        have hmem : t ∈ l.map mapTurn := by
          have hsuf : List.IsSuffix (t :: ts) (l.map mapTurn) := by
            rw [← hh]
            exact List.dropWhile_suffix _
          exact hsuf.subset (by simp)
        obtain ⟨m, _, hm⟩ := List.mem_map.mp hmem
        rw [← hm] at hne ⊢
        simp only [mapTurn] at hne ⊢
        by_cases hu : m.role = "user" <;> simp [hu] at hne ⊢
  · decide

/-! ### Claim C4 — premium-record slug resolution -/

/-- The record keyed `delta-green`, carrying `delta-green-concentrate`
among its variants. -/
def deltaGreenRec : PremiumRecord :=
  ⟨"Delta Green", "Concentrated industrial degreaser.", "Degreasers",
    ["delta-green-concentrate"]⟩

def deltaGreenRecords : List (String × PremiumRecord) := [("delta-green", deltaGreenRec)]

/-- A record whose key extends the slug `delta-green`, as in the base-family
naming the claim's rule (c) is meant to bridge. -/
def concentrateRec : PremiumRecord := ⟨"Delta Green Concentrate", "", "", []⟩

def concentrateRecords : List (String × PremiumRecord) :=
  [("delta-green-concentrate", concentrateRec)]

/-- Counterexample to C4: the claimed match rule (c) is bidirectional prefix
containment, under which the slug `delta-green` (derived from
`grounding__delta-green__v1.txt`) would resolve to the record keyed
`delta-green-concentrate` — the spec-worded resolver returns that record —
but the code only tests whether the slug extends a record key (never
whether a record key extends the slug), so it resolves to `null` here. -/
theorem premium_resolution_c4_cex :
    deriveFileKey "grounding__delta-green__v1.txt" = "delta-green"
    ∧ specResolvePremium "delta-green" concentrateRecords = some concentrateRec
    ∧ resolvePremium "delta-green" concentrateRecords = Option.none := by
  refine ⟨by decide, by decide, ?_⟩
  simp [resolvePremium, concentrateRecords, List.find?]
  decide

/-- Claim C4 as amended: slug derivation is as claimed, and
`grounding__delta-green-concentrate__v1.txt` resolves to the `delta-green`
record through its variant list; but matching is per record in record
order with, for each record, the disjunction "exact key equality, or the
slug equals or extends a variant, or the slug extends the key" — the
slug-is-a-prefix-of-a-key direction is not checked — and an identifier
matching no record under that disjunction resolves to `null`. -/
theorem premium_resolution_c4_amended :
    deriveFileKey "grounding__delta-green-concentrate__v1.txt" = "delta-green-concentrate"
    ∧ resolvePremium "delta-green-concentrate" deltaGreenRecords = some deltaGreenRec
    ∧ (∀ (fileKey : String) (records : List (String × PremiumRecord)),
        resolvePremium fileKey records = Option.none
          ↔ ∀ kd ∈ records, matchesRecord fileKey kd = false) := by
  refine ⟨by decide, by decide, ?_⟩
  intro fileKey records
  simp [resolvePremium, Option.map_eq_none', List.find?_eq_none]

/-- Witness for the amended C4 at concrete inputs: a slug that matches no
key, no variant and extends no key resolves to `null`. -/
theorem premium_resolution_c4_witness :
    resolvePremium "purple-power" deltaGreenRecords = Option.none :=
  (premium_resolution_c4_amended.2.2 "purple-power" deltaGreenRecords).mpr (by decide)

/-! ### Claim C5 — technical-record length capping -/

/-- A plain-text document body one character longer than the PDF cap. -/
def longTechText : String := String.mk (List.replicate 30001 'a')

lemma longTechText_length : longTechText.length = 30001 := by
  show (List.replicate 30001 'a').length = 30001
  rw [List.length_replicate]

/-- Counterexample to C5: the claim says plain-text documents use the raw
text "under the same cap" as PDFs, but the code caps only the PDF branch
(`pdfText.slice(0, 30000)`); a `.txt` document whose content has 30001
characters is passed through whole, exceeding the cap. -/
theorem technical_cap_c5_cex :
    technicalRecordOf "sds.txt" true (Except.ok longTechText) = longTechText
    ∧ 30000 < (technicalRecordOf "sds.txt" true (Except.ok longTechText)).length := by
  have hpdf : endsStr (lowerStr "sds.txt") ".pdf" = false := by decide
  have h : technicalRecordOf "sds.txt" true (Except.ok longTechText) = longTechText := by
    simp [technicalRecordOf, hpdf]
  exact ⟨h, by rw [h, longTechText_length]; omega⟩

/-- Claim C5 as amended: for a document-identifier decision, a document
whose (lowercased) name ends in `.pdf` has its extracted text capped to
30000 characters, while any other document uses its raw text with no cap
at all. -/
theorem technical_cap_c5_amended (name content : String) :
    (endsStr (lowerStr name) ".pdf" = true →
      (technicalRecordOf name true (Except.ok content)).length ≤ 30000)
    ∧ (endsStr (lowerStr name) ".pdf" = false →
      technicalRecordOf name true (Except.ok content) = content) := by
  constructor
  · intro h
    simp [technicalRecordOf, h, takeStr]
  · intro h
    simp [technicalRecordOf, h]

/-- Witness for the amended C5 at concrete inputs. -/
theorem technical_cap_c5_witness :
    (technicalRecordOf "label.pdf" true (Except.ok "hello")).length ≤ 30000
    ∧ technicalRecordOf "label.txt" true (Except.ok "hello") = "hello" :=
  ⟨(technical_cap_c5_amended "label.pdf" "hello").1 (by decide),
   (technical_cap_c5_amended "label.txt" "hello").2 (by decide)⟩

/-! ### Claim C2 — the category-keyword override -/

/-- Counterexample to C2: the claim protects classifier answers in
`{USE_CASE, DELIVERY, CLARIFY}` from the keyword override, but for a
message containing the category keywords `dish` and `soap` the code skips
the classifier entirely and forces `GUIDE`, so even a `DELIVERY` answer is
not kept. -/
theorem keyword_override_c2_cex :
    decisionOf "dish soap delivery?" (Except.ok "DELIVERY") = Except.ok "GUIDE"
    ∧ routeDecision "dish soap delivery?" "DELIVERY" = "GUIDE" := by
  constructor
  · rfl
  · decide

lemma routeDecision_of_likely (m r : String) (h : isLikelySearch m = true) :
    routeDecision m r = "GUIDE" := by
  simp only [routeDecision, h, if_true]
  decide

/-- Claim C2 as amended: whenever the message contains one of the fixed
category keywords (case-insensitively, including the misspelled variants),
the classifier is not consulted at all and the decision is unconditionally
`GUIDE` — no classifier answer (the claim's protected set included) can be
kept on that path. -/
theorem keyword_override_c2_amended (m : String) (cls : Except String String)
    (h : isLikelySearch m = true) :
    decisionOf m cls = Except.ok "GUIDE" := by
  simp only [decisionOf, h, if_true]
  rw [routeDecision_of_likely m "" h]

/-- Witness for the amended C2 on the spec's own test vector: the message
`"do you have a floor degreaser"` with classifier answer `"NONE"` is
routed to `GUIDE`. -/
theorem keyword_override_c2_witness :
    decisionOf "do you have a floor degreaser" (Except.ok "NONE") = Except.ok "GUIDE" :=
  keyword_override_c2_amended "do you have a floor degreaser" (Except.ok "NONE") (by decide)

/-! ### Claim C3 — the decision vocabulary and the missing USE_CASE branch -/

lemma contextBranchOf_document_iff (d : String) :
    contextBranchOf d = ContextBranch.document ↔
      (d ≠ "CLARIFY" ∧ d ≠ "GUIDE" ∧ d ≠ "DELIVERY" ∧ d ≠ "NONE"
        ∧ d ≠ "GENERAL" ∧ 0 < d.length) := by
  unfold contextBranchOf
  split_ifs with h1 h2 h3 h4 h5 h6 <;> simp_all

/-- Counterexample to C3: there is no `USE_CASE` decision in the code — the
normalization loop recognizes only `{GUIDE, DELIVERY, CLARIFY, NONE,
GENERAL}`, so a classifier answer of `USE_CASE` passes through verbatim
and the retrieve-and-parse chain handles it as a document identifier
(taking the product/document branch); no use-case map exists anywhere, so
no problem-to-solution pair can be surfaced. -/
theorem decision_vocab_c3_cex :
    routeDecision "hello" "USE_CASE" = "USE_CASE"
    ∧ "USE_CASE" ∉ decisionKeywords
    ∧ contextBranchOf "USE_CASE" = ContextBranch.document := by
  refine ⟨by decide, by decide, by decide⟩

/-- Claim C3 as amended: the routing step produces exactly one decision
string, which is either one of the five recognized keywords `{GUIDE,
DELIVERY, CLARIFY, NONE, GENERAL}` or the cleaned-up classifier output
treated as a document identifier; keyword decisions never reach the
document branch, and a decision that reaches the document branch is a
non-empty non-keyword string.  There is no `USE_CASE` decision. -/
theorem decision_vocab_c3_amended (m r : String) :
    (routeDecision m r ∈ decisionKeywords
      ∨ routeDecision m r = cleanupSelected (trimStr r))
    ∧ (∀ d ∈ decisionKeywords, contextBranchOf d ≠ ContextBranch.document)
    ∧ (contextBranchOf (routeDecision m r) = ContextBranch.document →
        0 < (routeDecision m r).length ∧ routeDecision m r ∉ decisionKeywords) := by
  refine ⟨?_, ?_, ?_⟩
  · by_cases hl : isLikelySearch m
    · left
      rw [routeDecision_of_likely m r hl]
      decide
    · unfold routeDecision
      simp only [hl, if_false]
      match hf : decisionKeywords.find?
          (fun kw => strIncludes (upperStr (trimStr r)) kw) with
      | some kw =>
        left
        have hmem := List.mem_of_find?_eq_some hf
        simp [decisionKeywords] at hmem
        rcases hmem with h | h | h | h | h <;> simp_all <;> decide
      | Option.none => right; rfl
  · intro d hd
    simp [decisionKeywords] at hd
    rcases hd with h | h | h | h | h <;> simp_all <;> decide
  · intro h
    have hc := (contextBranchOf_document_iff _).mp h
    refine ⟨hc.2.2.2.2.2, ?_⟩
    intro hmem
    simp [decisionKeywords] at hmem
    rcases hmem with h' | h' | h' | h' | h' <;> simp_all

/-- Witness for the amended C3: a `USE_CASE` classifier answer is a
non-keyword decision reaching the document branch. -/
theorem decision_vocab_c3_witness :
    0 < (routeDecision "hello" "USE_CASE").length
    ∧ routeDecision "hello" "USE_CASE" ∉ decisionKeywords :=
  (decision_vocab_c3_amended "hello" "USE_CASE").2.2 (by decide)

/-! ### Claim C1 — the history character-budget trim -/

/-- Total content length of a sanitized history. -/
def totalContentLength (l : List HistMsg) : Nat :=
  (l.map (fun m => m.content.length)).sum

/-- A 1000-character content string (the per-message cap). -/
def mkContent (c : Char) : String := String.mk (List.replicate 1000 c)

def rawTurn (c : Char) : RawMsg := RawMsg.obj (some "user") (some (mkContent c))

def histTurn (c : Char) : HistMsg := ⟨"user", mkContent c⟩

/-- Seven maximal user turns: cumulative content 7000 > 6000. -/
def c1Input : List RawMsg :=
  [rawTurn 'a', rawTurn 'b', rawTurn 'c', rawTurn 'd', rawTurn 'e',
   rawTurn 'f', rawTurn 'g']

lemma takeStr_mkContent (c : Char) :
    takeStr (mkContent c) MAX_MESSAGE_LENGTH = mkContent c := by
  show String.mk ((List.replicate 1000 c).take 1000) = String.mk (List.replicate 1000 c)
  rw [List.take_replicate]
  norm_num

lemma coerce_rawTurn (c : Char) : coerceMsg (rawTurn c) = some (histTurn c) := by
  show some (⟨"user", takeStr (mkContent c) MAX_MESSAGE_LENGTH⟩ : HistMsg) = some (histTurn c)
  rw [takeStr_mkContent]
  rfl

lemma histTurn_len (c : Char) : (histTurn c).content.length = 1000 := by
  show (List.replicate 1000 c).length = 1000
  rw [List.length_replicate]

lemma mkContent_inj {c c' : Char} (h : mkContent c = mkContent c') : c = c' := by
  have h4 : List.replicate 1000 c = List.replicate 1000 c' := congrArg String.data h
  rw [show (1000 : Nat) = 999 + 1 from rfl, List.replicate_succ,
    List.replicate_succ] at h4
  injection h4 with h5 _

lemma histTurn_inj {c c' : Char} (h : histTurn c = histTurn c') : c = c' :=
  mkContent_inj (congrArg HistMsg.content h)

lemma cleanTrimmed_c1 :
    cleanTrimmed c1Input =
      [histTurn 'a', histTurn 'b', histTurn 'c', histTurn 'd', histTurn 'e',
       histTurn 'f', histTurn 'g'] := by
  simp [cleanTrimmed, c1Input, coerce_rawTurn, histTurn_len, lastN,
    MAX_HISTORY_ITEMS]

lemma budget_c1 :
    budgetTrim 0
      [histTurn 'a', histTurn 'b', histTurn 'c', histTurn 'd', histTurn 'e',
       histTurn 'f', histTurn 'g'] =
      [histTurn 'a', histTurn 'b', histTurn 'c', histTurn 'd', histTurn 'e',
       histTurn 'f'] := by
  norm_num [budgetTrim, histTurn_len, MAX_HISTORY_CONTENT_LENGTH]

/-- Counterexample to C1: on seven 1000-character turns (cumulative 7000 >
6000), the budget filter keeps the six oldest turns and drops the newest,
so the sanitized history is a strict prefix — not a suffix — of the
count-trimmed history, and the most recent turn is the one lost. -/
theorem history_budget_c1_cex :
    sanitizeHistory (some c1Input) =
      [histTurn 'a', histTurn 'b', histTurn 'c', histTurn 'd', histTurn 'e',
       histTurn 'f']
    ∧ cleanTrimmedOf (some c1Input) =
      [histTurn 'a', histTurn 'b', histTurn 'c', histTurn 'd', histTurn 'e',
       histTurn 'f', histTurn 'g']
    ∧ ¬ List.IsSuffix (sanitizeHistory (some c1Input)) (cleanTrimmedOf (some c1Input))
    ∧ histTurn 'g' ∉ sanitizeHistory (some c1Input) := by
  have hsan : sanitizeHistory (some c1Input) =
      [histTurn 'a', histTurn 'b', histTurn 'c', histTurn 'd', histTurn 'e',
       histTurn 'f'] := by
    show budgetTrim 0 (cleanTrimmed c1Input) = _
    rw [cleanTrimmed_c1, budget_c1]
  have hct : cleanTrimmedOf (some c1Input) =
      [histTurn 'a', histTurn 'b', histTurn 'c', histTurn 'd', histTurn 'e',
       histTurn 'f', histTurn 'g'] := cleanTrimmed_c1
  refine ⟨hsan, hct, ?_, ?_⟩
  · intro hsuf
    rw [hsan, hct] at hsuf
    have hdrop := List.suffix_iff_eq_drop.mp hsuf
    norm_num [List.drop] at hdrop
    have h1 : histTurn 'a' = histTurn 'b' := hdrop.1
    exact absurd (histTurn_inj h1) (by decide)
  · rw [hsan]
    intro hmem
    simp only [List.mem_cons, List.not_mem_nil, or_false] at hmem
    rcases hmem with h | h | h | h | h | h <;>
      exact absurd (histTurn_inj h) (by decide)

lemma budgetTrim_sublist (l : List HistMsg) :
    ∀ total : Nat, List.Sublist (budgetTrim total l) l := by
  induction l with
  | nil => intro total; simp [budgetTrim]
  | cons m rest ih =>
    intro total
    unfold budgetTrim
    split_ifs with h
    · exact (ih total).cons m
    · exact (ih _).cons₂ m

lemma budgetTrim_total (l : List HistMsg) :
    ∀ total : Nat, total ≤ MAX_HISTORY_CONTENT_LENGTH →
      total + totalContentLength (budgetTrim total l) ≤ MAX_HISTORY_CONTENT_LENGTH := by
  induction l with
  | nil => intro total h; simpa [budgetTrim, totalContentLength] using h
  | cons m rest ih =>
    intro total h
    unfold budgetTrim
    split_ifs with hc
    · exact ih total h
    · have h2 := ih (total + m.content.length) (by omega)
      simp only [totalContentLength, List.map_cons, List.sum_cons] at h2 ⊢
      omega

lemma cleanTrimmed_content_le (l : List RawMsg) (m : HistMsg)
    (hm : m ∈ cleanTrimmed l) : m.content.length ≤ MAX_MESSAGE_LENGTH := by
  unfold cleanTrimmed lastN at hm
  have hm2 := List.drop_subset _ _ hm
  have hm3 := (List.mem_filter.mp hm2).1
  obtain ⟨r, _, hr⟩ := List.mem_filterMap.mp hm3
  cases r with
  | nonObj => simp [coerceMsg] at hr
  | obj role content =>
    simp only [coerceMsg, Option.some.injEq] at hr
    rw [← hr]
    cases content with
    | none => simp [MAX_MESSAGE_LENGTH]
    | some s =>
      show (s.data.take MAX_MESSAGE_LENGTH).length ≤ MAX_MESSAGE_LENGTH
      simp [List.length_take]

lemma budgetTrim_head_of_le (l : List HistMsg)
    (h : ∀ m ∈ l, m.content.length ≤ MAX_MESSAGE_LENGTH) :
    (budgetTrim 0 l).head? = l.head? := by
  cases l with
  | nil => rfl
  | cons m rest =>
    have hm := h m (by simp)
    unfold budgetTrim
    rw [if_neg (by
      simp only [MAX_MESSAGE_LENGTH] at hm
      simp only [MAX_HISTORY_CONTENT_LENGTH]
      omega)]
    simp

/-- Claim C1 as amended: the budget filter scans the count-trimmed history
oldest-first, greedily keeping every entry that still fits in the
6000-character budget; the result is an order-preserving subsequence (not
in general a suffix) of the count-trimmed history whose total content
length is at most the budget and which always retains the count-trimmed
history's oldest entry; at most 12 entries survive.  When the budget
overflows it is the more recent entries that are dropped. -/
theorem history_budget_c1_amended (raw : Option (List RawMsg)) :
    totalContentLength (sanitizeHistory raw) ≤ MAX_HISTORY_CONTENT_LENGTH
    ∧ List.Sublist (sanitizeHistory raw) (cleanTrimmedOf raw)
    ∧ (sanitizeHistory raw).head? = (cleanTrimmedOf raw).head?
    ∧ (sanitizeHistory raw).length ≤ MAX_HISTORY_ITEMS := by
  cases raw with
  | none =>
    refine ⟨?_, ?_, ?_, ?_⟩ <;> simp [sanitizeHistory, cleanTrimmedOf,
      totalContentLength, MAX_HISTORY_CONTENT_LENGTH, MAX_HISTORY_ITEMS]
  | some l =>
    show totalContentLength (budgetTrim 0 (cleanTrimmed l)) ≤ _
      ∧ List.Sublist (budgetTrim 0 (cleanTrimmed l)) (cleanTrimmed l)
      ∧ (budgetTrim 0 (cleanTrimmed l)).head? = (cleanTrimmed l).head?
      ∧ (budgetTrim 0 (cleanTrimmed l)).length ≤ MAX_HISTORY_ITEMS
    refine ⟨?_, budgetTrim_sublist _ 0,
      budgetTrim_head_of_le _ (fun m hm => cleanTrimmed_content_le l m hm), ?_⟩
    · have h := budgetTrim_total (cleanTrimmed l) 0 (by simp)
      simpa using h
    · calc (budgetTrim 0 (cleanTrimmed l)).length
          ≤ (cleanTrimmed l).length := (budgetTrim_sublist _ 0).length_le
        _ ≤ MAX_HISTORY_ITEMS := by
            simp only [cleanTrimmed, lastN, List.length_drop, MAX_HISTORY_ITEMS]
            omega

/-! ### Pipeline evaluation helpers -/

lemma POSTmodel_reach (env : Env) (b : ChatBody) (files : List String) (d : String)
    (h1 : env.apiKeyPresent = true)
    (h2 : (isRateLimitedStep env.quota env.now).1 = false)
    (h3 : env.body = Except.ok b)
    (h4 : messageOf b ≠ "")
    (h5 : (messageOf b).length ≤ MAX_MESSAGE_LENGTH)
    (h6 : env.filesFetch = Except.ok files)
    (h7 : decisionOf (messageOf b) env.classifierResult = Except.ok d) :
    POSTmodel env =
      (match env.answer (pipelineContext env b files d) with
       | Except.error _ => (internalErrorResp, (isRateLimitedStep env.quota env.now).2)
       | Except.ok r => (ApiResponse.success r, (isRateLimitedStep env.quota env.now).2)) := by
  have h5' : ¬ (MAX_MESSAGE_LENGTH < (messageOf b).length) := by omega
  simp [POSTmodel, h1, h2, h3, h4, h5', h6, h7]

lemma assembleContext_document (d : String)
    (h : contextBranchOf d = ContextBranch.document)
    (history : List HistMsg) (guide : String) (zips : List ZipRec)
    (meta : List (String × PremiumRecord)) (files : List String)
    (download : Except String String) :
    assembleContext d history guide zips meta files download =
      documentContext d files meta download := by
  obtain ⟨n1, n2, n3, n4, n5, hlen⟩ := (contextBranchOf_document_iff d).mp h
  simp [assembleContext, n1, n2, n3, n4, n5, hlen]

/-! ### Claim C8 — document read failure degrades, never fails the request -/

/-- Claim C8: when the pipeline reaches a document decision whose
identifier is in the file index and the download or text extraction fails,
the assembled context block is the premium block with the technical section
replaced by the explicit "could not be loaded" placeholder, and the request
still succeeds (the answering call proceeds and its reply is returned). -/
theorem doc_read_failure_c8 (env : Env) (b : ChatBody) (files : List String)
    (d : String) (m r : String)
    (h1 : env.apiKeyPresent = true)
    (h2 : (isRateLimitedStep env.quota env.now).1 = false)
    (h3 : env.body = Except.ok b)
    (h4 : messageOf b ≠ "")
    (h5 : (messageOf b).length ≤ MAX_MESSAGE_LENGTH)
    (h6 : env.filesFetch = Except.ok files)
    (h7 : decisionOf (messageOf b) env.classifierResult = Except.ok d)
    (h8 : contextBranchOf d = ContextBranch.document)
    (h9 : d ∈ files)
    (h10 : env.download = Except.error m)
    (h11 : env.answer (pipelineContext env b files d) = Except.ok r) :
    (POSTmodel env).1 = ApiResponse.success r
    ∧ pipelineContext env b files d =
        premiumHeader d (resolvePremium (deriveFileKey d)
          (match env.premiumMeta with
           | Except.ok l => l
           | Except.error _ => []))
          ++ "Technical record could not be loaded." := by
  constructor
  · rw [POSTmodel_reach env b files d h1 h2 h3 h4 h5 h6 h7, h11]
  · have hfound : files.any (fun n => n = d) = true := by
      rw [List.any_eq_true]
      exact ⟨d, h9, by simp⟩
    unfold pipelineContext
    rw [assembleContext_document d h8]
    unfold documentContext
    rw [h10, hfound]
    simp [technicalRecordOf]

/-- Witness environment for C8: a document decision whose download fails. -/
def env8 : Env :=
  { apiKeyPresent := true
  , quota := Option.none
  , now := 0
  , body := Except.ok ⟨some "tell me about delta", Option.none⟩
  , filesFetch := Except.ok ["grounding__delta-green__v1.txt"]
  , productGuide := ""
  , zipcodes := Except.ok []
  , premiumMeta := Except.ok []
  , classifierResult := Except.ok "grounding__delta-green__v1.txt"
  , download := Except.error "network unreachable"
  , answer := fun _ => Except.ok "degraded reply" }

/-- Witness for C8: on `env8` the request succeeds and the context carries
the placeholder. -/
theorem doc_read_failure_c8_witness :
    (POSTmodel env8).1 = ApiResponse.success "degraded reply"
    ∧ pipelineContext env8 ⟨some "tell me about delta", Option.none⟩
        ["grounding__delta-green__v1.txt"] "grounding__delta-green__v1.txt" =
      premiumHeader "grounding__delta-green__v1.txt"
        (resolvePremium (deriveFileKey "grounding__delta-green__v1.txt") [])
        ++ "Technical record could not be loaded." := by
  have h := doc_read_failure_c8 env8 ⟨some "tell me about delta", Option.none⟩
    ["grounding__delta-green__v1.txt"] "grounding__delta-green__v1.txt"
    "network unreachable" "degraded reply"
    rfl (by decide) rfl (by decide) (by decide) rfl (by rfl) (by decide)
    (by decide) rfl rfl
  exact h

/-! ### Claim C9 — the response envelope -/

/-- Claim C9: every request yields either a success payload or one of the
five fixed error payloads (whose codes/statuses are CONFIGURATION_ERROR
503, RATE_LIMITED 429, VALIDATION_ERROR 400, INTERNAL_ERROR 500); any
failure payload carries one of the four defined codes; and a failing
answering call produces exactly the constant generic internal-error
payload, which is independent of the thrown message, so no internal detail
can leak. -/
theorem response_envelope_c9 :
    (∀ env : Env,
      (∃ s, (POSTmodel env).1 = ApiResponse.success s)
      ∨ (POSTmodel env).1 = configErrorResp
      ∨ (POSTmodel env).1 = rateLimitedResp
      ∨ (POSTmodel env).1 = validationRequiredResp
      ∨ (POSTmodel env).1 = validationTooLongResp
      ∨ (POSTmodel env).1 = internalErrorResp)
    ∧ (∀ (env : Env) (e c : String) (dd : Option String) (st : Nat),
        (POSTmodel env).1 = ApiResponse.failure e c dd st →
          (c = "CONFIGURATION_ERROR" ∧ st = 503)
          ∨ (c = "RATE_LIMITED" ∧ st = 429)
          ∨ (c = "VALIDATION_ERROR" ∧ st = 400)
          ∨ (c = "INTERNAL_ERROR" ∧ st = 500))
    ∧ (∀ (env : Env) (b : ChatBody) (files : List String) (d m : String),
        env.apiKeyPresent = true →
        (isRateLimitedStep env.quota env.now).1 = false →
        env.body = Except.ok b →
        messageOf b ≠ "" →
        (messageOf b).length ≤ MAX_MESSAGE_LENGTH →
        env.filesFetch = Except.ok files →
        decisionOf (messageOf b) env.classifierResult = Except.ok d →
        env.answer (pipelineContext env b files d) = Except.error m →
        (POSTmodel env).1 = internalErrorResp) := by
  have hmain : ∀ env : Env,
      (∃ s, (POSTmodel env).1 = ApiResponse.success s)
      ∨ (POSTmodel env).1 = configErrorResp
      ∨ (POSTmodel env).1 = rateLimitedResp
      ∨ (POSTmodel env).1 = validationRequiredResp
      ∨ (POSTmodel env).1 = validationTooLongResp
      ∨ (POSTmodel env).1 = internalErrorResp := by
    intro env
    by_cases hrl : (isRateLimitedStep env.quota env.now).1 = true <;>
      (unfold POSTmodel; repeat' split; all_goals (try simp only [hrl]); all_goals (try simp))
  refine ⟨hmain, ?_, ?_⟩
  · intro env e c dd st hfail
    rcases hmain env with ⟨s, hs⟩ | h | h | h | h | h <;>
      rw [hfail] at *
    · exact absurd hs (by simp)
    all_goals
      first
      | (simp [configErrorResp] at h; simp [h])
      | (simp [rateLimitedResp] at h; simp [h])
      | (simp [validationRequiredResp] at h; simp [h])
      | (simp [validationTooLongResp] at h; simp [h])
      | (simp [internalErrorResp] at h; simp [h])
  · intro env b files d m h1 h2 h3 h4 h5 h6 h7 h8
    rw [POSTmodel_reach env b files d h1 h2 h3 h4 h5 h6 h7, h8]

/-- Witness environment for C9: the answering call throws with a message
that must not surface. -/
def env9 : Env :=
  { apiKeyPresent := true
  , quota := Option.none
  , now := 0
  , body := Except.ok ⟨some "hi", Option.none⟩
  , filesFetch := Except.ok []
  , productGuide := ""
  , zipcodes := Except.ok []
  , premiumMeta := Except.ok []
  , classifierResult := Except.ok "GENERAL"
  , download := Except.ok ""
  , answer := fun _ => Except.error "stack trace with secrets" }

/-- Witness for C9: on `env9` the failing answering call maps to the fixed
generic internal-error payload. -/
theorem response_envelope_c9_witness :
    (POSTmodel env9).1 = internalErrorResp := by
  exact response_envelope_c9.2.2 env9 ⟨some "hi", Option.none⟩ [] "GENERAL"
    "stack trace with secrets" rfl (by decide) rfl (by decide) (by decide)
    rfl (by rfl) rfl

/-! ### Claim C10 — quota is consumed before message validation -/

/-- Claim C10 (implicit frame effect): a request that passes the rate-limit
check but fails message validation (empty or oversized message) has already
consumed one unit of quota — the stored entry after the request is exactly
the entry the rate-limit step wrote: a fresh window with count 1 when the
client had no live window, and count incremented by one when it had one. -/
theorem quota_before_validation_c10 (env : Env) (b : ChatBody)
    (h1 : env.apiKeyPresent = true)
    (h2 : (isRateLimitedStep env.quota env.now).1 = false)
    (h3 : env.body = Except.ok b)
    (h4 : messageOf b = "" ∨ MAX_MESSAGE_LENGTH < (messageOf b).length) :
    ((POSTmodel env).1 = validationRequiredResp
      ∨ (POSTmodel env).1 = validationTooLongResp)
    ∧ (POSTmodel env).2 = (isRateLimitedStep env.quota env.now).2
    ∧ (env.quota = Option.none →
        (POSTmodel env).2 = some ⟨1, env.now + RATE_LIMIT_WINDOW_MS⟩)
    ∧ (∀ e, env.quota = some e → e.expiresAt ≤ env.now →
        (POSTmodel env).2 = some ⟨1, env.now + RATE_LIMIT_WINDOW_MS⟩)
    ∧ (∀ e, env.quota = some e → env.now < e.expiresAt →
        (POSTmodel env).2 = some ⟨e.count + 1, e.expiresAt⟩) := by
  have hpair : POSTmodel env =
      ((if messageOf b = "" then validationRequiredResp else validationTooLongResp),
        (isRateLimitedStep env.quota env.now).2) := by
    rcases h4 with h4 | h4
    · simp [POSTmodel, h1, h2, h3, h4]
    · have h4' : messageOf b ≠ "" := by
        intro hempty
        rw [hempty] at h4
        simp [MAX_MESSAGE_LENGTH] at h4
      simp [POSTmodel, h1, h2, h3, h4, h4']
  refine ⟨?_, ?_, ?_, ?_, ?_⟩
  · rw [hpair]
    by_cases hm : messageOf b = "" <;> simp [hm]
  · rw [hpair]
  · intro hq
    rw [hpair]
    simp [isRateLimitedStep, hq]
  · intro e hq hexp
    rw [hpair]
    simp [isRateLimitedStep, hq, hexp]
  · intro e hq hlive
    have hcount : ¬ (RATE_LIMIT_MAX_REQUESTS ≤ e.count) := by
      intro habs
      rw [hq] at h2
      rw [isRateLimitedStep_reject e.count e.expiresAt env.now hlive habs] at h2
      simp at h2
    rw [hpair, hq]
    simp only [isRateLimitedStep]
    rw [if_neg (by omega), if_neg hcount]

/-- Witness environment for C10: an empty message from a fresh client. -/
def env10 : Env :=
  { apiKeyPresent := true
  , quota := Option.none
  , now := 0
  , body := Except.ok ⟨Option.none, Option.none⟩
  , filesFetch := Except.ok []
  , productGuide := ""
  , zipcodes := Except.ok []
  , premiumMeta := Except.ok []
  , classifierResult := Except.ok "GENERAL"
  , download := Except.ok ""
  , answer := fun _ => Except.ok "never reached" }

/-- Witness for C10: the rejected empty-message request still wrote a fresh
quota window with count 1. -/
theorem quota_before_validation_c10_witness :
    ((POSTmodel env10).1 = validationRequiredResp
      ∨ (POSTmodel env10).1 = validationTooLongResp)
    ∧ (POSTmodel env10).2 = some ⟨1, 60000⟩ := by
  have h := quota_before_validation_c10 env10 ⟨Option.none, Option.none⟩
    rfl (by decide) rfl (Or.inl rfl)
  exact ⟨h.1, h.2.2.1 rfl⟩
